import Mathlib

/-!
Verification development for the smart_fixer remediation core
(src/smart_fixer.py of universal-linter-auto-fix-setup).

Python strings are modelled as lists of characters (`Str`). File-system
state is modelled explicitly: the single file under remediation is a
`Str`, and the stateful functions of the source return the new on-disk
content together with their Python return value. External effects
(the model router, the two detectors) are oracle parameters.
-/

namespace SmartFixer

/-- Python strings, modelled as lists of characters. -/
abbrev Str := List Char

/-- ASCII whitespace as recognised by Python str.strip / str.isspace
(restricted to the ASCII range, which is all the source manipulates). -/
def pyIsSpace (c : Char) : Bool :=
  c = ' ' || c = '\t' || c = '\n' || c = '\x0d' || c = '\x0b' || c = '\x0c'

/-- Python str.strip() with no argument: drop whitespace on both ends. -/
def stripStr (s : Str) : Str :=
  ((s.dropWhile pyIsSpace).reverse.dropWhile pyIsSpace).reverse

/-- Python substring membership test: s in c. The empty string occurs in
every string, as in Python. -/
def occursIn (s : Str) : Str → Bool
  | [] => s.isEmpty
  | c :: cs => s.isPrefixOf (c :: cs) || occursIn s cs

/-- Python c.replace(s, r, 1): replace the first occurrence of s in c
by r; if s does not occur, c is returned unchanged. With s empty, Python
inserts r before the first character, which this definition also does. -/
def replaceFirst (c s r : Str) : Str :=
  match c with
  | [] => if s.isEmpty then r else []
  | x :: xs =>
    if s.isPrefixOf (x :: xs) then r ++ (x :: xs).drop s.length
    else x :: replaceFirst xs s r

/-- Split a string at the first occurrence of delim, returning the text
before the occurrence and the text after it; none if delim is absent. -/
def splitFirst (delim : Str) : Str → Option (Str × Str)
  | [] => if delim.isEmpty then some ([], []) else none
  | c :: cs =>
    if delim.isPrefixOf (c :: cs) then some ([], (c :: cs).drop delim.length)
    else
      match splitFirst delim cs with
      | some (pre, post) => some (c :: pre, post)
      | none => none

/-- Opening delimiter of a patch block in the regex of
_apply_search_replace (smart_fixer.py line 207). -/
def searchDelim : Str := ("<<<< SEARCH\n").toList

/-- Separator between the SEARCH and REPLACE parts of a block. -/
def sepDelim : Str := ("\n====\n").toList

/-- Closing delimiter of a patch block. -/
def endDelim : Str := ("\n>>>>").toList

/-- Scanning loop of re.finditer for the fully literal pattern
of smart_fixer.py line 207. The non-greedy captures of the pattern make
each match take the earliest opening delimiter that can be completed,
the earliest separator after it, and the earliest closing delimiter
after that; scanning resumes after the end of the match. Fuel decreases
on every emitted block; the caller supplies enough for any input. -/
def parseBlocksAux : Nat → Str → List (Str × Str)
  | 0, _ => []
  | fuel + 1, t =>
    match splitFirst searchDelim t with
    | none => []
    | some (_, rest1) =>
      match splitFirst sepDelim rest1 with
      | none => []
      | some (sBlock, rest2) =>
        match splitFirst endDelim rest2 with
        | none => []
        | some (rBlock, rest3) => (sBlock, rBlock) :: parseBlocksAux fuel rest3

/-- All (search, replace) pairs of a response, in the order re.finditer
yields them (smart_fixer.py lines 207-209). -/
def parseBlocks (t : Str) : List (Str × Str) :=
  parseBlocksAux (t.length + 1) t

/-- Application loop of _apply_search_replace (smart_fixer.py lines
219-234): each block's search text is looked up in the successively
updated content; the first occurrence is replaced; if a search text is
absent the whole application yields none.  The source's loose-match
branch (lines 227-232) also returns None on both of its paths, so the
else branch here is a single none. -/
def applyBlocks (content : Str) : List (Str × Str) → Option Str
  | [] => some content
  | (s, r) :: rest =>
    if occursIn s content then applyBlocks (replaceFirst content s r) rest
    else none

/-- Model of _apply_search_replace (smart_fixer.py lines 193-234): parse the
blocks; with no block the function returns None (line 211), otherwise
it applies them in parse order. -/
def applySearchReplace (originalContent patchText : Str) : Option Str :=
  let blocks := parseBlocks patchText
  if blocks.isEmpty then none else applyBlocks originalContent blocks

/-- A concrete two-block response used to exercise the parser: the
second block's search text is introduced by the first block's
replacement. -/
def chainResponse : Str :=
  ("<<<< SEARCH\na\n====\nb\n>>>>\n<<<< SEARCH\nb\n====\nc\n>>>>").toList

theorem isPrefixOf_iff_exists_append (s c : Str) :
    s.isPrefixOf c = true ↔ ∃ t, c = s ++ t := by
  rw [List.isPrefixOf_iff_prefix]
  constructor
  · rintro ⟨t, ht⟩; exact ⟨t, ht.symm⟩
  · rintro ⟨t, ht⟩; exact ⟨t, ht.symm⟩

theorem occursIn_iff_exists (s : Str) :
    ∀ c : Str, occursIn s c = true ↔ ∃ pre post, c = pre ++ s ++ post := by
  intro c
  induction c with
  | nil =>
    simp only [occursIn, List.isEmpty_iff]
    constructor
    · intro hs; exact ⟨[], [], by simp [hs]⟩
    · rintro ⟨pre, post, h⟩
      rcases List.append_eq_nil.mp h.symm with ⟨h1, h2⟩
      exact (List.append_eq_nil.mp h1).2
  | cons x xs ih =>
    simp only [occursIn, Bool.or_eq_true]
    constructor
    · rintro (hp | ho)
      · obtain ⟨t, ht⟩ := (isPrefixOf_iff_exists_append s (x :: xs)).mp hp
        exact ⟨[], t, by simp [ht]⟩
      · obtain ⟨pre, post, h⟩ := ih.mp ho
        exact ⟨x :: pre, post, by simp [h]⟩
    · rintro ⟨pre, post, h⟩
      cases pre with
      | nil =>
        left
        exact (isPrefixOf_iff_exists_append s (x :: xs)).mpr ⟨post, by simpa using h⟩
      | cons y ys =>
        right
        apply ih.mpr
        simp only [List.cons_append] at h
        exact ⟨ys, post, (List.cons.inj h).2⟩

/-- Characterisation of replaceFirst: when s occurs in c, the result is
c with the occurrence of s at the least starting index replaced by r,
everything before and after that occurrence unchanged. -/
theorem replaceFirst_spec (s r : Str) :
    ∀ c : Str, occursIn s c = true →
      ∃ pre post, c = pre ++ s ++ post ∧
        replaceFirst c s r = pre ++ r ++ post ∧
        ∀ pre' post', c = pre' ++ s ++ post' → pre.length ≤ pre'.length := by
  intro c
  induction c with
  | nil =>
    intro h
    simp only [occursIn, List.isEmpty_iff] at h
    exact ⟨[], [], by simp [h], by simp [replaceFirst, h], fun _ _ _ => Nat.zero_le _⟩
  | cons x xs ih =>
    intro h
    simp only [occursIn, Bool.or_eq_true] at h
    by_cases hp : s.isPrefixOf (x :: xs) = true
    · obtain ⟨t, ht⟩ := (isPrefixOf_iff_exists_append s (x :: xs)).mp hp
      have hd : (x :: xs).drop s.length = t := by
        rw [ht]; exact List.drop_left s t
      refine ⟨[], t, by simp [ht], ?_, fun _ _ _ => Nat.zero_le _⟩
      simp only [replaceFirst, hp, if_true, hd, List.nil_append]
    · have ho : occursIn s xs = true := h.resolve_left hp
      obtain ⟨pre, post, hc, hr, hmin⟩ := ih ho
      refine ⟨x :: pre, post, by simp [hc], ?_, ?_⟩
      · simp only [replaceFirst, hp, if_false, hr]
        simp
      · rintro pre' post' h'
        cases pre' with
        | nil =>
          exfalso
          apply hp
          exact (isPrefixOf_iff_exists_append s (x :: xs)).mpr ⟨post', by simpa using h'⟩
        | cons y ys =>
          simp only [List.cons_append] at h'
          have hxs : xs = ys ++ s ++ post' := (List.cons.inj h').2
          have := hmin ys post' hxs
          simpa using Nat.succ_le_succ this

/-- Sequencing of applyBlocks over a split of the block list. -/
theorem applyBlocks_append (ys : List (Str × Str)) :
    ∀ (xs : List (Str × Str)) (c : Str),
      applyBlocks c (xs ++ ys) = (applyBlocks c xs).bind (fun c' => applyBlocks c' ys) := by
  intro xs
  induction xs with
  | nil => intro c; simp [applyBlocks]
  | cons b rest ih =>
    intro c
    obtain ⟨s, r⟩ := b
    simp only [List.cons_append, applyBlocks]
    by_cases h : occursIn s c = true
    · simp [h, ih]
    · simp [Bool.not_eq_true] at h
      simp [h]

/-- C6: for content C and a block (S, R) whose S occurs verbatim in C,
application replaces the first verbatim occurrence of S by R, leaving
all text outside that occurrence unchanged, and further blocks are
applied in parse order against the successively updated content. -/
theorem patch_block_replaces_first_occurrence (c s r : Str) (rest : List (Str × Str))
    (h : occursIn s c = true) :
    (∃ pre post,
        c = pre ++ s ++ post ∧
        replaceFirst c s r = pre ++ r ++ post ∧
        ∀ pre' post', c = pre' ++ s ++ post' → pre.length ≤ pre'.length) ∧
    applyBlocks c ((s, r) :: rest) = applyBlocks (replaceFirst c s r) rest := by
  refine ⟨replaceFirst_spec s r c h, ?_⟩
  simp [applyBlocks, h]

theorem patch_block_replaces_first_occurrence_witness :
    (∃ pre post,
        ("xbz").toList = pre ++ ("b").toList ++ post ∧
        replaceFirst ("xbz").toList ("b").toList ("Y").toList = pre ++ ("Y").toList ++ post ∧
        ∀ pre' post', ("xbz").toList = pre' ++ ("b").toList ++ post' →
          pre.length ≤ pre'.length) ∧
    applyBlocks ("xbz").toList [(("b").toList, ("Y").toList)] =
      applyBlocks (replaceFirst ("xbz").toList ("b").toList ("Y").toList) [] :=
  patch_block_replaces_first_occurrence ("xbz").toList ("b").toList ("Y").toList []
    (by decide)

/-- C5, counterexample: the response chainResponse contains a SEARCH
block whose text (b) does not occur verbatim in the content (a), yet
patch application succeeds, because the first block's replacement
introduces the second block's search text into the updated content. -/
theorem patch_absent_search_counterexample :
    occursIn ("b").toList ("a").toList = false ∧
    (("b").toList, ("c").toList) ∈ parseBlocks chainResponse ∧
    applySearchReplace ("a").toList chainResponse = some ("c").toList := by
  refine ⟨by decide, by decide, by decide⟩

/-- C5 as amended: a block's search text is looked up in the
successively updated content, not in the original; whenever some
block's search text is absent from the content current at that block's
turn, the whole application yields no result, so no edit from the
response is committed. -/
theorem patch_mismatch_yields_none (patchText c c' s r : Str)
    (pre rest : List (Str × Str))
    (hp : parseBlocks patchText = pre ++ (s, r) :: rest)
    (h1 : applyBlocks c pre = some c')
    (h2 : occursIn s c' = false) :
    applySearchReplace c patchText = none := by
  have hne : (pre ++ (s, r) :: rest).isEmpty = false := by
    cases pre <;> simp [List.isEmpty]
  simp only [applySearchReplace, hp, hne, Bool.false_eq_true, if_false]
  rw [applyBlocks_append, h1]
  simp [applyBlocks, h2]

theorem patch_mismatch_yields_none_witness :
    applySearchReplace ("a").toList ("<<<< SEARCH\nx\n====\ny\n>>>>").toList = none :=
  patch_mismatch_yields_none ("<<<< SEARCH\nx\n====\ny\n>>>>").toList
    ("a").toList ("a").toList ("x").toList ("y").toList [] []
    (by decide) rfl (by decide)

/-- Issue records in the normalised shape the fixer passes around
(smart_fixer.py lines 145-153): rule, line, message and source snippet,
all modelled as strings. -/
structure Issue where
  rule : Str
  line : Str
  message : Str
  line_text : Str
deriving DecidableEq, Repr

/-- Three backticks, the code fence marker. -/
def fence : Str := ("```").toList

/-- Python line.strip().startswith of the fence marker
(smart_fixer.py lines 183 and 605). -/
def fenceLine (line : Str) : Bool := fence.isPrefixOf (stripStr line)

/-- Helper for splitNl, accumulating the current line reversed. -/
def splitNlAux : Str → Str → List Str
  | [], acc => [acc.reverse]
  | c :: cs, acc =>
    if c = '\n' then acc.reverse :: splitNlAux cs [] else splitNlAux cs (c :: acc)

/-- Python s.split on a newline separator: keeps a trailing empty
piece when s ends in a newline, as Python split does. -/
def splitNl (s : Str) : List Str := splitNlAux s []

/-- Join lines with newlines, Python newline.join(lines). -/
def joinNl (lines : List Str) : Str := List.intercalate (("\n").toList) lines

/-- Line loop of the hybrid fallback in apply_and_verify (lines
602-611): collect the lines strictly inside the first fenced block and
break at the first closing fence. -/
def fallbackLines : List Str → Bool → List Str
  | [], _ => []
  | line :: rest, inBlock =>
    if fenceLine line then
      if inBlock then [] else fallbackLines rest true
    else if inBlock then line :: fallbackLines rest true
    else fallbackLines rest false

/-- Hybrid fallback of apply_and_verify (lines 599-620): requires a
fence somewhere in the raw response, extracts the first fenced block,
and adopts it only when nonempty and of length strictly inside the
(0.5, 1.5) ratio window of the original length. The source compares
len(potential)/len(original) against 0.5 and 1.5 in floating point;
for nonzero original length that is exactly the integer condition
below. (With an empty original the source would raise
ZeroDivisionError at the division; the condition below is then false.
No claim touches that case.) -/
def fallbackCandidate (originalContent raw : Str) : Option Str :=
  if occursIn fence raw then
    let codeLines := fallbackLines (splitNl raw) false
    if codeLines.isEmpty then none
    else
      let potential := joinNl codeLines
      if originalContent.length < 2 * potential.length ∧
          2 * potential.length < 3 * originalContent.length then
        some potential
      else none
  else none

/-- Candidate selection of apply_and_verify (lines 591-620): the patch
result is adopted only when it is truthy (non-None and nonempty, the
Python if) and differs from the original; in every other case the
elif runs the fenced-block fallback. -/
def selectCandidate (originalContent raw : Str) : Option Str :=
  match applySearchReplace originalContent raw with
  | some p =>
    if p = [] ∨ p = originalContent then fallbackCandidate originalContent raw
    else some p
  | none => fallbackCandidate originalContent raw

/-- Sanity check of apply_and_verify (lines 624-627):
len(candidate) > 10 and abs(len(candidate) - len(original)) <
len(original) * 0.5. The float len(original)*0.5 is exact, so the
comparison is exactly 2 * |difference| < len(original). -/
def sanityOk (candidate originalContent : Str) : Bool :=
  decide (10 < candidate.length) &&
  decide (2 * Nat.dist candidate.length originalContent.length < originalContent.length)

/-- Shape of json.loads on detector output: a JSON object (carrying
the issues parsed out of files[0], empty when files is empty), some
other JSON document (an array), or undecodable output
(json.JSONDecodeError). -/
inductive ScanOutput where
  | dict (issues : List Issue)
  | arr
  | malformed
deriving DecidableEq, Repr

/-- Python-level result of apply_and_verify: the returned triple, or
the uncaught NameError the source raises when the verify output parses
to a JSON array — that branch (line 654) never assigns issue_list, yet
lines 667-676 read it. -/
inductive AvResult where
  | ok (success : Bool) (count : Nat) (issues : List Issue)
  | nameError
deriving DecidableEq, Repr

/-- Success flag of an apply_and_verify result. -/
def avSuccess : AvResult → Bool
  | .ok s _ _ => s
  | .nameError => false

/-- Issue count of an apply_and_verify result. -/
def avCount : AvResult → Nat
  | .ok _ n _ => n
  | .nameError => 0

/-- Model of _run_detectors (lines 104-160): tscanner issues (a parse failure
or non-dict shape contributes none) followed by the opti_scanner
findings (whose failure handlers also contribute none); returns the
combined count and list. -/
def runDetectors (tscan : ScanOutput) (optiIssues : List Issue) : Nat × List Issue :=
  let tIssues : List Issue :=
    match tscan with
    | .dict issues => issues
    | .arr => []
    | .malformed => []
  ((tIssues ++ optiIssues).length, tIssues ++ optiIssues)

/-- apply_and_verify (lines 588-684). disk0 is the on-disk content of
the file when the call starts; the first component of the result is
the on-disk content when the call returns. optiCount is the length of
the opti_scanner findings for the candidate (the bare except leaves it
0 on failure) and scan is the parsed shape of the tscanner output on
the candidate. The write of the candidate to the permanent path (line
630) happens before any verification; total_remaining is
v_issues + opti_issues, and only the tscanner issue list is returned. -/
def applyAndVerify (disk0 originalContent raw : Str) (initialCount optiCount : Nat)
    (scan : ScanOutput) : Str × AvResult :=
  match selectCandidate originalContent raw with
  | none => (disk0, .ok false initialCount [])
  | some candidate =>
    if sanityOk candidate originalContent then
      match scan with
      | .arr => (candidate, .nameError)
      | .malformed => (candidate, .ok true 0 [])
      | .dict issues =>
        let total := issues.length + optiCount
        if total < initialCount then (candidate, .ok true total issues)
        else (candidate, .ok false total issues)
    else (disk0, .ok false initialCount [])

/-- C1, counterexample: an attempt in which the candidate is written
to the permanent file although the candidate is not accepted: with one
remaining issue against one pre-attempt issue the verification fails,
yet the on-disk content at return is the candidate, not the original. -/
theorem disk_overwritten_before_acceptance_counterexample :
    applyAndVerify ("hello world!").toList ("hello world!").toList
        ("<<<< SEARCH\nworld\n====\nwalls\n>>>>").toList 1 0
        (.dict [⟨("R1").toList, ("1").toList, ("m").toList, ("w").toList⟩]) =
      (("hello walls!").toList,
        .ok false 1 [⟨("R1").toList, ("1").toList, ("m").toList, ("w").toList⟩]) ∧
    ("hello walls!").toList ≠ ("hello world!").toList := by
  refine ⟨by decide, by decide⟩

/-- C1 as amended: apply_and_verify writes every selected, size-sane
candidate to the permanent file before any verification outcome: for
every scan outcome the on-disk content at return is the candidate,
also on rejection and on the inconclusive path. (The transient-file
verifier _verify_candidate_content exists but only _adaptive_fix_file
calls it, and run_smart_fixer never calls _adaptive_fix_file; the
original content is restored only by the later revert.) -/
theorem candidate_written_before_verification (disk0 originalContent raw : Str)
    (initialCount optiCount : Nat) (scan : ScanOutput) (candidate : Str)
    (hsel : selectCandidate originalContent raw = some candidate)
    (hsan : sanityOk candidate originalContent = true) :
    (applyAndVerify disk0 originalContent raw initialCount optiCount scan).1 = candidate := by
  cases scan with
  | arr => simp [applyAndVerify, hsel, hsan]
  | malformed => simp [applyAndVerify, hsel, hsan]
  | dict issues =>
    simp only [applyAndVerify, hsel, hsan, if_true]
    split <;> rfl

theorem candidate_written_before_verification_witness :
    (applyAndVerify ("hello world!").toList ("hello world!").toList
        ("<<<< SEARCH\nworld\n====\nwalls\n>>>>").toList 9 0 .arr).1 =
      ("hello walls!").toList :=
  candidate_written_before_verification ("hello world!").toList ("hello world!").toList
    ("<<<< SEARCH\nworld\n====\nwalls\n>>>>").toList 9 0 .arr ("hello walls!").toList
    (by decide) (by decide)

/-- C2: when a candidate is selected, passes the size check and is
verified against parseable tscanner output, the attempt is marked
successful iff the combined remaining count (tscanner plus
opti_scanner) is strictly below the pre-attempt count; ties and
increases are never accepted. -/
theorem acceptance_iff_strictly_fewer (disk0 originalContent raw : Str)
    (initialCount optiCount : Nat) (issues : List Issue) (candidate : Str)
    (hsel : selectCandidate originalContent raw = some candidate)
    (hsan : sanityOk candidate originalContent = true) :
    avSuccess (applyAndVerify disk0 originalContent raw initialCount optiCount
        (.dict issues)).2 = true ↔
      issues.length + optiCount < initialCount := by
  simp only [applyAndVerify, hsel, hsan, if_true]
  by_cases h : issues.length + optiCount < initialCount
  · simp [h, avSuccess]
  · simp [h, avSuccess]

theorem acceptance_iff_strictly_fewer_witness :
    avSuccess (applyAndVerify ("hello world!").toList ("hello world!").toList
        ("<<<< SEARCH\nworld\n====\nwalls\n>>>>").toList 1 0 (.dict [])).2 = true ↔
      List.length ([] : List Issue) + 0 < 1 :=
  acceptance_iff_strictly_fewer ("hello world!").toList ("hello world!").toList
    ("<<<< SEARCH\nworld\n====\nwalls\n>>>>").toList 1 0 [] ("hello walls!").toList
    (by decide) (by decide)

/-- C3, counterexample: with unparseable tscanner output the attempt
is reported successful with zero issues — the candidate is accepted
and left on disk, not treated as inconclusive. -/
theorem malformed_scan_accepted_counterexample :
    applyAndVerify ("hello world!").toList ("hello world!").toList
        ("<<<< SEARCH\nworld\n====\nwalls\n>>>>").toList 5 0 .malformed =
      (("hello walls!").toList, .ok true 0 []) := by
  decide

/-- C3 as amended: when the tscanner verify output for a selected,
size-sane candidate cannot be parsed, apply_and_verify assumes partial
success: it returns success with count zero and the candidate stays on
disk; likewise _run_detectors counts an unparseable tscanner output as
contributing no issues, leaving only the opti_scanner findings. -/
theorem malformed_scan_assumes_success (disk0 originalContent raw : Str)
    (initialCount optiCount : Nat) (candidate : Str) (optiIssues : List Issue)
    (hsel : selectCandidate originalContent raw = some candidate)
    (hsan : sanityOk candidate originalContent = true) :
    applyAndVerify disk0 originalContent raw initialCount optiCount .malformed =
      (candidate, .ok true 0 []) ∧
    runDetectors .malformed optiIssues = (optiIssues.length, optiIssues) := by
  refine ⟨by simp [applyAndVerify, hsel, hsan], by simp [runDetectors]⟩

theorem malformed_scan_assumes_success_witness :
    applyAndVerify ("hello world!").toList ("hello world!").toList
        ("<<<< SEARCH\nworld\n====\nwalls\n>>>>").toList 7 2 .malformed =
      (("hello walls!").toList, .ok true 0 []) ∧
    runDetectors .malformed [] = (List.length ([] : List Issue), []) :=
  malformed_scan_assumes_success ("hello world!").toList ("hello world!").toList
    ("<<<< SEARCH\nworld\n====\nwalls\n>>>>").toList 7 2 ("hello walls!").toList []
    (by decide) (by decide)

/-- C7, counterexample: a candidate of exactly half the original
length (inside the closed interval of the claim) is not taken forward
to verification: even with zero remaining issues reported, the attempt
fails with the pre-attempt count and the file untouched, because the
source's checks are strict (open interval) and also require
len(candidate) > 10. -/
theorem half_length_candidate_rejected_counterexample :
    selectCandidate ("abcdefghijklmnopqrst").toList
        ("<<<< SEARCH\nabcdefghijklmnopqrst\n====\nabcdefghij\n>>>>").toList =
      some ("abcdefghij").toList ∧
    2 * (("abcdefghij").toList).length = (("abcdefghijklmnopqrst").toList).length ∧
    applyAndVerify ("abcdefghijklmnopqrst").toList ("abcdefghijklmnopqrst").toList
        ("<<<< SEARCH\nabcdefghijklmnopqrst\n====\nabcdefghij\n>>>>").toList 20 0
        (.dict []) =
      (("abcdefghijklmnopqrst").toList, .ok false 20 []) := by
  refine ⟨by decide, by decide, by decide⟩

/-- C7 as amended: a selected candidate is taken forward to
verification only if its length exceeds 10 and lies strictly inside
the open window, 2 * |len(candidate) - len(original)| < len(original);
a candidate violating either condition is rejected by the size-safety
check: the attempt returns failure with the pre-attempt count and the
on-disk content is left untouched, for every scan outcome. -/
theorem size_safety_rejection (disk0 originalContent raw : Str)
    (initialCount optiCount : Nat) (scan : ScanOutput) (candidate : Str)
    (hsel : selectCandidate originalContent raw = some candidate)
    (hsan : ¬ (10 < candidate.length ∧
        2 * Nat.dist candidate.length originalContent.length < originalContent.length)) :
    applyAndVerify disk0 originalContent raw initialCount optiCount scan =
      (disk0, .ok false initialCount []) := by
  have hs : sanityOk candidate originalContent = false := by
    rw [← Bool.not_eq_true]
    intro htrue
    exact hsan (by simpa [sanityOk, Bool.and_eq_true] using htrue)
  simp [applyAndVerify, hsel, hs]

theorem size_safety_rejection_witness :
    applyAndVerify ("abcdefghijklmnopqrst").toList ("abcdefghijklmnopqrst").toList
        ("<<<< SEARCH\nabcdefghijklmnopqrst\n====\nabcdefghij\n>>>>").toList 4 1
        .malformed =
      (("abcdefghijklmnopqrst").toList, .ok false 4 []) :=
  size_safety_rejection ("abcdefghijklmnopqrst").toList ("abcdefghijklmnopqrst").toList
    ("<<<< SEARCH\nabcdefghijklmnopqrst\n====\nabcdefghij\n>>>>").toList 4 1
    .malformed ("abcdefghij").toList (by decide) (by decide)

/-- C10: a patch that applies successfully but reproduces the original
content is not adopted as the patch candidate — selection falls
through to the fenced-block fallback — and when the fallback yields no
usable candidate the attempt fails with the pre-attempt count and the
on-disk content untouched. -/
theorem identity_patch_falls_through (disk0 originalContent raw : Str)
    (initialCount optiCount : Nat) (scan : ScanOutput)
    (hid : applySearchReplace originalContent raw = some originalContent) :
    selectCandidate originalContent raw = fallbackCandidate originalContent raw ∧
    (fallbackCandidate originalContent raw = none →
      applyAndVerify disk0 originalContent raw initialCount optiCount scan =
        (disk0, .ok false initialCount [])) := by
  constructor
  · simp [selectCandidate, hid]
  · intro hf
    simp [applyAndVerify, selectCandidate, hid, hf]

theorem identity_patch_falls_through_witness :
    applyAndVerify ("hello world!").toList ("hello world!").toList
        ("<<<< SEARCH\nhello\n====\nhello\n>>>>").toList 3 0 (.dict []) =
      (("hello world!").toList, .ok false 3 []) :=
  (identity_patch_falls_through ("hello world!").toList ("hello world!").toList
    ("<<<< SEARCH\nhello\n====\nhello\n>>>>").toList 3 0 (.dict [])
    (by decide)).2 (by decide)

/-- Terminal state of one file in the batch loop of run_smart_fixer:
fixed (a candidate accepted), reverted (the original written back), or
errored (an exception such as the NameError of the JSON-array verify
shape reached the per-file handler at line 578, which logs and moves
on without reverting). -/
inductive FileOutcome where
  | fixed
  | reverted
  | errored
deriving DecidableEq, Repr

/-- Per-file flow of run_smart_fixer (lines 456-576), with external
effects as oracles: raw1 and raw2 are the two model responses, opti1,
scan1 and opti2, scan2 the detector behaviour inside the two
apply_and_verify calls, and diagIssues the current_issues list the
self-correction branch obtains (from the failure history or a fresh
_run_detectors run). Returns the file's on-disk content at the end of
processing together with the terminal state; the history registration
calls do not touch the file and are modelled separately. -/
def processFile (content raw1 : Str) (initialCount opti1 : Nat) (scan1 : ScanOutput)
    (diagIssues : List Issue) (raw2 : Str) (opti2 : Nat) (scan2 : ScanOutput) :
    Str × FileOutcome :=
  match (applyAndVerify content content raw1 initialCount opti1 scan1).2 with
  | .nameError => ((applyAndVerify content content raw1 initialCount opti1 scan1).1, .errored)
  | .ok true _ _ => ((applyAndVerify content content raw1 initialCount opti1 scan1).1, .fixed)
  | .ok false _ _ =>
    if diagIssues.isEmpty then (content, .reverted)
    else
      match (applyAndVerify (applyAndVerify content content raw1 initialCount opti1 scan1).1
          content raw2 initialCount opti2 scan2).2 with
      | .nameError =>
        ((applyAndVerify (applyAndVerify content content raw1 initialCount opti1 scan1).1
          content raw2 initialCount opti2 scan2).1, .errored)
      | .ok true _ _ =>
        ((applyAndVerify (applyAndVerify content content raw1 initialCount opti1 scan1).1
          content raw2 initialCount opti2 scan2).1, .fixed)
      | .ok false _ _ => (content, .reverted)

/-- C4: whenever a file's remediation terminates in the reverted state
(its attempts exhausted without an accepted candidate), the on-disk
content at the terminal state equals the original content byte for
byte — the revert at lines 569 and 574 writes content back verbatim. -/
theorem revert_restores_original (content raw1 : Str) (initialCount opti1 : Nat)
    (scan1 : ScanOutput) (diagIssues : List Issue) (raw2 : Str) (opti2 : Nat)
    (scan2 : ScanOutput)
    (h : (processFile content raw1 initialCount opti1 scan1 diagIssues raw2 opti2 scan2).2 =
      FileOutcome.reverted) :
    (processFile content raw1 initialCount opti1 scan1 diagIssues raw2 opti2 scan2).1 =
      content := by
  unfold processFile at h ⊢
  cases hr1 : (applyAndVerify content content raw1 initialCount opti1 scan1).2 with
  | nameError => simp [hr1] at h
  | ok s1 c1 is1 =>
    cases s1 with
    | true => simp [hr1] at h
    | false =>
      cases hd : diagIssues.isEmpty with
      | true => simp [hr1, hd]
      | false =>
        cases hr2 : (applyAndVerify
            (applyAndVerify content content raw1 initialCount opti1 scan1).1
            content raw2 initialCount opti2 scan2).2 with
        | nameError => simp [hr1, hd, hr2] at h
        | ok s2 c2 is2 =>
          cases s2 with
          | true => simp [hr1, hd, hr2] at h
          | false => simp [hr1, hd, hr2]

theorem revert_restores_original_witness :
    (processFile ("hello world!").toList [] 2 0 (.dict [])
        [⟨("R1").toList, ("1").toList, ("m").toList, ("w").toList⟩] [] 0 (.dict [])).1 =
      ("hello world!").toList :=
  revert_restores_original ("hello world!").toList [] 2 0 (.dict [])
    [⟨("R1").toList, ("1").toList, ("m").toList, ("w").toList⟩] [] 0 (.dict [])
    (by decide)

/-- Python s.splitlines() restricted to newline separators: like
splitNl but without the trailing empty piece a final newline would
otherwise produce, as in Python. -/
def splitLines (s : Str) : List Str :=
  match s.getLast? with
  | some '\n' => (splitNl s).dropLast
  | some _ => splitNl s
  | none => []

/-- Line loop of _extract_code_block (lines 180-187): collect the
lines inside fenced blocks, toggling at every fence line; every block
contributes. -/
def extractBlockLines : List Str → Bool → List Str
  | [], _ => []
  | line :: rest, inBlock =>
    if fenceLine line then extractBlockLines rest (!inBlock)
    else if inBlock then line :: extractBlockLines rest inBlock
    else extractBlockLines rest inBlock

/-- Model of _extract_code_block (lines 177-190): the collected block lines
joined by newlines, or none when no line was collected. -/
def extractCodeBlock (content : Str) : Option Str :=
  let block := extractBlockLines (splitLines content) false
  if block.isEmpty then none else some (joinNl block)

/-- MAX_FILE_ATTEMPTS (line 15). -/
def MAX_FILE_ATTEMPTS : Nat := 3

/-- Failure notes of _adaptive_fix_file, by shape (the source builds
them as formatted strings; emptyStr is the empty note returned with an
accepted candidate). -/
inductive FailNote where
  | initialPass
  | emptyStr
  | emptyContent (attempt : Nat)
  | verifyFailed (attempt : Nat)
  | countStayed (count : Nat)
deriving DecidableEq, Repr

/-- One attempt's external behaviour in _adaptive_fix_file: the model
response for the attempt and the issue count
_verify_candidate_content reports for the attempt's candidate
(none when verification fails). -/
structure AttemptOracle where
  response : Str
  verifyCount : Option Nat
deriving DecidableEq, Repr

/-- Attempt loop of _adaptive_fix_file (lines 297-319): attempt is the
1-based index of the next attempt, fuel the number of loop iterations
left. best is best_issue_count, which the source never updates inside
the loop. On acceptance the source returns the candidate with an empty
note; exhausting the loop falls through to the failure return carrying
original_content. -/
def adaptiveLoop (originalContent : Str) (oracle : Nat → AttemptOracle) (best : Nat) :
    Nat → Nat → FailNote → Bool × Str × Nat × FailNote
  | _, 0, note => (false, originalContent, best, note)
  | attempt, fuel + 1, _ =>
    let o := oracle attempt
    let candidate := (extractCodeBlock o.response).getD o.response
    if (stripStr candidate).isEmpty then
      adaptiveLoop originalContent oracle best (attempt + 1) fuel (.emptyContent attempt)
    else
      match o.verifyCount with
      | none =>
        adaptiveLoop originalContent oracle best (attempt + 1) fuel (.verifyFailed attempt)
      | some c =>
        if c < best then (true, candidate, c, .emptyStr)
        else adaptiveLoop originalContent oracle best (attempt + 1) fuel (.countStayed c)

/-- Model of _adaptive_fix_file (lines 280-319): starts at attempt 1 with
best_issue_count = len(issues) and the initial-pass note. -/
def adaptiveFixFile (originalContent : Str) (issues : List Issue)
    (oracle : Nat → AttemptOracle) : Bool × Str × Nat × FailNote :=
  adaptiveLoop originalContent oracle issues.length 1 MAX_FILE_ATTEMPTS .initialPass

theorem adaptiveLoop_agree (originalContent : Str) (best : Nat) :
    ∀ (fuel attempt : Nat) (note : FailNote) (oracle oracle' : Nat → AttemptOracle),
      (∀ i, attempt ≤ i → i < attempt + fuel → oracle i = oracle' i) →
      adaptiveLoop originalContent oracle best attempt fuel note =
        adaptiveLoop originalContent oracle' best attempt fuel note := by
  intro fuel
  induction fuel with
  | zero => intro attempt note oracle oracle' _; rfl
  | succ n ih =>
    intro attempt note oracle oracle' hagree
    have ho : oracle attempt = oracle' attempt :=
      hagree attempt (Nat.le_refl _) (Nat.lt_add_of_pos_right (Nat.succ_pos n))
    have hrest : ∀ i, attempt + 1 ≤ i → i < attempt + 1 + n → oracle i = oracle' i := by
      intro i h1 h2
      exact hagree i (Nat.le_of_succ_le h1) (by omega)
    simp only [adaptiveLoop, ho]
    cases hempty : (stripStr ((extractCodeBlock (oracle' attempt).response).getD
        (oracle' attempt).response)).isEmpty with
    | true =>
      simp only [hempty, if_true]
      exact ih (attempt + 1) _ oracle oracle' hrest
    | false =>
      simp only [hempty, Bool.false_eq_true, if_false]
      cases (oracle' attempt).verifyCount with
      | none => exact ih (attempt + 1) _ oracle oracle' hrest
      | some c =>
        by_cases hc : c < best
        · simp [hc]
        · simp only [hc, if_false]
          exact ih (attempt + 1) _ oracle oracle' hrest

theorem adaptiveLoop_fail_original (originalContent : Str)
    (oracle : Nat → AttemptOracle) (best : Nat) :
    ∀ (fuel attempt : Nat) (note : FailNote),
      (adaptiveLoop originalContent oracle best attempt fuel note).1 = false →
      (adaptiveLoop originalContent oracle best attempt fuel note).2.1 = originalContent := by
  intro fuel
  induction fuel with
  | zero => intro attempt note _; rfl
  | succ n ih =>
    intro attempt note h
    simp only [adaptiveLoop] at h ⊢
    cases hempty : (stripStr ((extractCodeBlock (oracle attempt).response).getD
        (oracle attempt).response)).isEmpty with
    | true =>
      simp only [hempty, if_true] at h ⊢
      exact ih (attempt + 1) _ h
    | false =>
      simp only [hempty, Bool.false_eq_true, if_false] at h ⊢
      cases hv : (oracle attempt).verifyCount with
      | none =>
        simp only [hv] at h ⊢
        exact ih (attempt + 1) _ h
      | some c =>
        simp only [hv] at h ⊢
        by_cases hc : c < best
        · simp [hc] at h
        · simp only [hc, if_false] at h ⊢
          exact ih (attempt + 1) _ h

/-- C9: the per-file adaptive loop performs at most MAX_FILE_ATTEMPTS
attempts — its result depends only on the attempts numbered 1 to
MAX_FILE_ATTEMPTS — the bound is 3, and exhausting the bound without
an accepted candidate terminates in the failed state carrying the
original content instead of issuing further attempts. -/
theorem adaptive_attempts_bounded (originalContent : Str) (issues : List Issue)
    (oracle oracle' : Nat → AttemptOracle)
    (hagree : ∀ i, 1 ≤ i → i ≤ MAX_FILE_ATTEMPTS → oracle i = oracle' i) :
    adaptiveFixFile originalContent issues oracle =
      adaptiveFixFile originalContent issues oracle' ∧
    ((adaptiveFixFile originalContent issues oracle).1 = false →
      (adaptiveFixFile originalContent issues oracle).2.1 = originalContent) ∧
    MAX_FILE_ATTEMPTS = 3 := by
  refine ⟨?_, ?_, rfl⟩
  · apply adaptiveLoop_agree
    intro i h1 h2
    apply hagree i h1
    omega
  · exact adaptiveLoop_fail_original originalContent oracle issues.length
      MAX_FILE_ATTEMPTS 1 .initialPass

theorem adaptive_attempts_bounded_witness :
    (adaptiveFixFile ("original text").toList [] (fun _ => ⟨[], none⟩)).2.1 =
      ("original text").toList :=
  (adaptive_attempts_bounded ("original text").toList [] (fun _ => ⟨[], none⟩)
    (fun _ => ⟨[], none⟩) (fun _ _ _ => rfl)).2.1 (by decide)

/-- Per-rule failure record of the history cache (smart_fixer.py line
81): last signature, consecutive-failure counter, last message. -/
structure FailRecord where
  last_signature : Str
  consecutive : Nat
  last_message : Str
deriving DecidableEq, Repr

/-- Fresh record installed by rules.setdefault (lines 80-82). -/
def freshRecord : FailRecord := ⟨[], 0, []⟩

/-- Model of _issue_signature (lines 44-51): rule, line and the first 128
characters of the message, joined with a vertical bar. -/
def issueSignature (i : Issue) : Str :=
  i.rule ++ '|' :: i.line ++ '|' :: i.message.take 128

/-- Per-issue update of a rule's record (lines 83-89): an unchanged
signature increments consecutive, a changed one resets it to 1; the
new signature and message are then stored. -/
def updateRecord (r : FailRecord) (i : Issue) : FailRecord :=
  { last_signature := issueSignature i
    consecutive := if r.last_signature = issueSignature i then r.consecutive + 1 else 1
    last_message := i.message }

/-- The rules dict of a file's history entry, as an association list;
lookup answers the setdefault default for an absent rule. -/
def lookupRecord (rules : List (Str × FailRecord)) (rule : Str) : FailRecord :=
  match rules with
  | [] => freshRecord
  | p :: rest => if p.1 = rule then p.2 else lookupRecord rest rule

/-- Dict assignment of a rule's record. -/
def storeRecord (rules : List (Str × FailRecord)) (rule : Str) (r : FailRecord) :
    List (Str × FailRecord) :=
  match rules with
  | [] => [(rule, r)]
  | p :: rest => if p.1 = rule then (rule, r) :: rest else p :: storeRecord rest rule r

/-- Issue loop of _register_failure_history (lines 75-98), restricted
to its effect on the rules map: each reported issue updates its rule's
record in order. -/
def registerIssues (rules : List (Str × FailRecord)) : List Issue → List (Str × FailRecord)
  | [] => rules
  | i :: rest =>
    registerIssues (storeRecord rules i.rule (updateRecord (lookupRecord rules i.rule) i))
      rest

theorem lookupRecord_storeRecord (rule : Str) (r : FailRecord) :
    ∀ rules : List (Str × FailRecord), lookupRecord (storeRecord rules rule r) rule = r := by
  intro rules
  induction rules with
  | nil => simp [storeRecord, lookupRecord]
  | cons p rest ih =>
    by_cases hp : p.1 = rule
    · simp [storeRecord, lookupRecord, hp]
    · simp only [storeRecord, hp, if_false, lookupRecord]
      simp [hp, ih]

/-- C8: recording a failed attempt's issue for a rule sets the rule's
record to the issue's signature and message, strictly increasing the
consecutive-failure counter by one when the signature equals the
previously recorded one, and resetting it to exactly 1 when the
signature changed. -/
theorem consecutive_counter_update (rules : List (Str × FailRecord)) (i : Issue) :
    lookupRecord (registerIssues rules [i]) i.rule =
      { last_signature := issueSignature i
        consecutive :=
          if (lookupRecord rules i.rule).last_signature = issueSignature i
          then (lookupRecord rules i.rule).consecutive + 1
          else 1
        last_message := i.message } := by
  simp only [registerIssues]
  rw [lookupRecord_storeRecord]
  rfl

end SmartFixer
